import Mathlib

/-!
Verification of `staramr/results/AMRDetectionSummary.py` (class `AMRDetectionSummary`).

The source manipulates pandas DataFrames.  We embed a DataFrame as a list of
column names together with a list of rows, where a row is an association list
from column name to cell value; a cell is either a string or NaN (`Val.nan`).
The pandas index of the frames in this program is always the `Isolate ID`
column, which we keep as an ordinary column named `"Isolate ID"`.

Pandas operations used by the source are modelled as follows:
* `sort_values(by=[c])` / `sort_index()`: stable sort of the rows by the value
  in column `c` (NaN last).  pandas' default quicksort is not stable, but every
  observation the program makes of the sorted order (joining equal gene-name
  strings, grouping, re-sorting a unique index) is insensitive to the order of
  equal keys, so a stable sort is observationally equivalent.
* `groupby(['Isolate ID']).aggregate(lambda x: {'Gene': ', '.join(x['Gene'])})`
  followed by `[['Gene']]`: rows whose group key is NaN are dropped (pandas
  drops NaN group keys); group keys are the distinct remaining isolate values,
  sorted ascending (groupby sort=True); each group's cell is the join of its
  `Gene` values in the sorted row order; the selection `[['Gene']]` keeps only
  the `Gene` column.  A NaN among the joined `Gene` values makes the Python
  join raise, which we model as an error.
* `append(other, sort=True)`: row concatenation; if the column sets differ the
  union of the columns is taken in sorted order and missing cells become NaN.
* `merge(on='Isolate ID', how='left')`: left join on the isolate column; the
  non-key columns present on both sides are suffixed `_x` / `_y`.
* `drop(labels, axis=1)`: raises a KeyError when a label is missing
  (errors='raise' is the pandas default).
* `rename(columns=...)`: renames matching columns, silently ignores absent ones.
* `reindex(columns=...)`: keeps the listed columns in order (plus the index),
  creating NaN-filled columns for the missing ones.
-/

namespace StarAMR
/-- A cell of a DataFrame: a string value or pandas NaN. -/
inductive Val where
  | str (s : String)
  | nan
  deriving DecidableEq, Repr

/-- A row: association list from column name to cell value. -/
abbrev Row := List (String × Val)

/-- Cell lookup in a row; an absent column reads as NaN. -/
def getCol (r : Row) (c : String) : Val :=
  match r.find? (fun p => p.1 = c) with
  | some p => p.2
  | none => Val.nan

/-- A DataFrame: column names plus rows. -/
structure DataFrame where
  cols : List String
  rows : List Row
  deriving DecidableEq, Repr

/-- Python string comparison on code points (used by pandas sorts). -/
def charsLe : List Char → List Char → Bool
  | [], _ => true
  | _ :: _, [] => false
  | a :: as, b :: bs =>
      if a.toNat < b.toNat then true
      else if b.toNat < a.toNat then false
      else charsLe as bs

/-- Python string less-or-equal. -/
def strLe (a b : String) : Bool := charsLe a.toList b.toList

/-- Cell ordering used by `sort_values`: strings by code point, NaN last. -/
def leVal : Val → Val → Bool
  | Val.str a, Val.str b => strLe a b
  | Val.str _, Val.nan => true
  | Val.nan, Val.str _ => false
  | Val.nan, Val.nan => true

/-- Compare two rows by the value in column `c`. -/
def rowLe (c : String) (r s : Row) : Bool := leVal (getCol r c) (getCol s c)

/-- Insert into a sorted list, before the first element it is `le` to
(stable insertion: an element inserted later goes after equal keys
of the already sorted suffix it came from). -/
def insBy {α : Type} (le : α → α → Bool) (x : α) : List α → List α
  | [] => [x]
  | y :: ys => if le x y then x :: y :: ys else y :: insBy le x ys

/-- Stable insertion sort. -/
def sortBy {α : Type} (le : α → α → Bool) : List α → List α
  | [] => []
  | x :: xs => insBy le x (sortBy le xs)

/-- Sort a list of strings ascending by code point. -/
def sortStrings (l : List String) : List String := sortBy strLe l

/-- Model of `df.sort_index()`: stable sort of the rows by `Isolate ID`. -/
def sortIndexFrame (df : DataFrame) : DataFrame :=
  ⟨df.cols, sortBy (rowLe "Isolate ID") df.rows⟩

/-- String value of `Isolate ID` in a row, when it is not NaN. -/
def isoStr (r : Row) : Option String :=
  match getCol r "Isolate ID" with
  | Val.str s => some s
  | Val.nan => none

/-- The non-NaN `Isolate ID` values of a list of rows, in row order. -/
def isolateStrs (rows : List Row) : List String := rows.filterMap isoStr

/-- Model of the pandas group keys of `groupby(['Isolate ID'])`:
the distinct non-NaN isolate values, sorted ascending (sort=True). -/
def groupKeys (rows : List Row) : List String :=
  sortStrings (isolateStrs rows).dedup

/-- The rows of one `groupby(['Isolate ID'])` group. -/
def groupRows (rows : List Row) (k : String) : List Row :=
  rows.filter (fun r => decide (getCol r "Isolate ID" = Val.str k))

/-- Extract the strings of a list of cells; `none` when some cell is NaN
(the Python string join raises on a non-string). -/
def strVals : List Val → Option (List String)
  | [] => some []
  | Val.str s :: vs =>
      match strVals vs with
      | some ss => some (s :: ss)
      | none => none
  | Val.nan :: _ => none

/-- The gene-list separator of the class (`SEPARATOR = ','` plus a space). -/
def SEPARATOR : String := ","

/-- Join gene names with the separator (`(self.SEPARATOR + ' ').join(...)`). -/
def joinGenes (gs : List String) : String := String.intercalate (SEPARATOR ++ " ") gs

/-- Build the aggregated rows: one row per group key carrying the joined
`Gene` values of the group; `none` when a joined cell is NaN. -/
def buildRows (sorted : List Row) : List String → Option (List Row)
  | [] => some []
  | k :: ks =>
      match strVals ((groupRows sorted k).map (fun r => getCol r "Gene")),
            buildRows sorted ks with
      | some gs, some rest =>
          some ([("Isolate ID", Val.str k), ("Gene", Val.str (joinGenes gs))] :: rest)
      | _, _ => none

/-- Model of `AMRDetectionSummary._compile_results` (source lines 30-33):
sort by `Gene`, group by `Isolate ID`, join each group's gene names with
", ", and keep only the `Gene` column (indexed by `Isolate ID`). -/
def _compile_results (df : DataFrame) : Except String DataFrame :=
  if "Gene" ∈ df.cols then
    if "Isolate ID" ∈ df.cols then
      match buildRows (sortBy (rowLe "Gene") df.rows)
              (groupKeys (sortBy (rowLe "Gene") df.rows)) with
      | some rs => Except.ok ⟨["Isolate ID", "Gene"], rs⟩
      | none => Except.error "TypeError: can only join strings"
    else Except.error "KeyError: Isolate ID"
  else Except.error "KeyError: Gene"

/-- Rename one column of a DataFrame (`rename(columns={old: new})`);
a missing column is silently ignored, as in pandas. -/
def renameCol (old new : String) (df : DataFrame) : DataFrame :=
  ⟨df.cols.map (fun c => if c = old then new else c),
   df.rows.map (fun r => r.map (fun p => if p.1 = old then (new, p.2) else p))⟩

/-- Model of `AMRDetectionSummary._compile_plasmids` (source lines 35-43):
the same aggregation as `_compile_results` (lines 36-39 duplicate lines
31-33), then the single non-index column - `ds_frame.columns[0]`, which is
`Gene` - is renamed to `Plasmid Genes`. -/
def _compile_plasmids (ds : DataFrame) : Except String DataFrame :=
  (_compile_results ds).map (renameCol "Gene" "Plasmid Genes")

/-- Model of `df.append(other, sort=True)`: concatenate the rows; when the
column lists differ, take the sorted union of the columns and fill missing
cells with NaN (rows are rebuilt in column order). -/
def appendFrames (df other : DataFrame) : DataFrame :=
  let cs := if df.cols = other.cols then df.cols
            else sortStrings (df.cols ++ other.cols.filter (fun c => decide (c ∉ df.cols)))
  ⟨cs, (df.rows ++ other.rows).map (fun r => cs.map (fun c => (c, getCol r c)))⟩

/-- Model of `AMRDetectionSummary._include_negatives` (source lines 45-52):
append one `Gene = "None"` row for every scanned name missing from the
frame's isolate values.  The source builds the missing names as a Python
set difference, whose iteration order is unspecified; we determinize it as
the first-occurrence order of `names` (every later observation of the
program sorts by isolate, so the order is not observable). -/
def _include_negatives (names : List String) (df : DataFrame) : DataFrame :=
  let result_names := isolateStrs df.rows
  let negative_names := names.dedup.filter (fun n => decide (n ∉ result_names))
  appendFrames df
    ⟨["Isolate ID", "Gene"],
     negative_names.map (fun n => [("Isolate ID", Val.str n), ("Gene", Val.str "None")])⟩

/-- Model of `merge(on='Isolate ID', how='left')`: left join on the isolate
column; non-key columns present on both sides get `_x` / `_y` suffixes;
a left row without a match gets NaN in the right-hand columns.  The merge
key is the (index) column of both frames and stays a column of the result. -/
def leftMerge (l r : DataFrame) (key : String) : DataFrame :=
  let lcols := l.cols.map (fun c => if c ≠ key ∧ c ∈ r.cols then c ++ "_x" else c)
  let rbase := r.cols.filter (fun c => decide (c ≠ key))
  let rcols := rbase.map (fun c => if c ∈ l.cols then c ++ "_y" else c)
  ⟨lcols ++ rcols,
   l.rows.flatMap (fun lr =>
     let lpart := l.cols.map (fun c =>
       ((if c ≠ key ∧ c ∈ r.cols then c ++ "_x" else c), getCol lr c))
     match r.rows.filter (fun rr =>
             decide (getCol rr key = getCol lr key ∧ getCol lr key ≠ Val.nan)) with
     | [] => [lpart ++ rbase.map (fun c =>
         ((if c ∈ l.cols then c ++ "_y" else c), Val.nan))]
     | ms => ms.map (fun rr => lpart ++ rbase.map (fun c =>
         ((if c ∈ l.cols then c ++ "_y" else c), getCol rr c))))⟩

/-- Model of `drop(labels, axis=1)`: error when a label is not a column
(pandas raises a KeyError), else remove the columns. -/
def dropCols (df : DataFrame) (labels : List String) : Except String DataFrame :=
  if ∀ c ∈ labels, c ∈ df.cols then
    Except.ok ⟨df.cols.filter (fun c => decide (c ∉ labels)),
               df.rows.map (fun r => r.filter (fun p => decide (p.1 ∉ labels)))⟩
  else Except.error "KeyError: Plasmid Genes_x not found in axis"

/-- Model of `reindex(columns=cs)`: the index column plus the listed columns,
missing ones NaN-filled. -/
def reindexColumns (df : DataFrame) (cs : List String) : DataFrame :=
  ⟨"Isolate ID" :: cs,
   df.rows.map (fun r => ("Isolate ID" :: cs).map (fun c => (c, getCol r c)))⟩

/-- Model of `os.path.basename`: the part after the last slash. -/
def basenameStr (s : String) : String :=
  String.mk (s.toList.foldl (fun acc c => if c = '/' then [] else acc ++ [c]) [])

/-- Model of `os.path.splitext(s)[0]` on a basename: strip from the last dot,
unless every character before that dot is itself a dot. -/
def splitextRoot (s : String) : String :=
  let cs := s.toList
  match cs.reverse.findIdx? (fun c => decide (c = '.')) with
  | none => s
  | some k =>
      let i := cs.length - 1 - k
      if (cs.take i).any (fun c => decide (c ≠ '.')) then String.mk (cs.take i) else s

/-- Isolate name derived from a scanned file path (source line 20). -/
def isolateName (f : String) : String := splitextRoot (basenameStr f)

/-- The constructor state of `AMRDetectionSummary` (source lines 13-28):
the scanned files and up to three result frames; the pointfinder and
plasmidfinder frames are optional (`None` in Python). -/
structure AMRDetectionSummary where
  files : List String
  resfinder_dataframe : DataFrame
  pointfinder_dataframe : Option DataFrame
  plasmidfinder_dataframe : Option DataFrame
  deriving DecidableEq, Repr

/-- The stored `self._names` (source line 20). -/
def AMRDetectionSummary.names (a : AMRDetectionSummary) : List String :=
  a.files.map isolateName

/-- The local `df` of `create_summary` before compilation (source lines 60-64):
the resfinder frame, with the pointfinder frame appended when present. -/
def combinedFrame (a : AMRDetectionSummary) : DataFrame :=
  match a.pointfinder_dataframe with
  | some p => appendFrames a.resfinder_dataframe p
  | none => a.resfinder_dataframe

/-- The local `ds` of `create_summary` after compilation (source lines 61, 67).
`_compile_plasmids` is applied unconditionally to `self._plasmidfinder_dataframe`,
so a missing plasmid frame is a Python `AttributeError` from `None.sort_values`. -/
def plasmidCompiled (a : AMRDetectionSummary) : Except String DataFrame :=
  match a.plasmidfinder_dataframe with
  | some ds => _compile_plasmids ds
  | none => Except.error "AttributeError: NoneType object has no attribute sort_values"

/-- Model of `AMRDetectionSummary.create_summary` (source lines 54-79). -/
def create_summary (a : AMRDetectionSummary) (include_negatives : Bool) :
    Except String DataFrame :=
  match _compile_results (combinedFrame a) with
  | Except.error e => Except.error e
  | Except.ok df1 =>
    match plasmidCompiled a with
    | Except.error e => Except.error e
    | Except.ok ds1 =>
      let df2 := if include_negatives then _include_negatives a.names df1 else df1
      let df3 := renameCol "Gene" "Genotype" df2
      if ds1.rows.isEmpty then Except.ok (sortIndexFrame df3)
      else
        match dropCols (leftMerge df3 ds1 "Isolate ID") ["Plasmid Genes_x"] with
        | Except.error e => Except.error e
        | Except.ok dropped =>
          Except.ok (sortIndexFrame (reindexColumns
            (renameCol "Plasmid Genes_y" "Plasmid Genes" dropped)
            ["Genotype", "Plasmid Genes", "Predicted Phenotype"]))

/-- A gene-detection or plasmid hit table: columns `Isolate ID` and `Gene`,
one row per (isolate, gene) hit. -/
def mkHits (l : List (String × String)) : DataFrame :=
  ⟨["Isolate ID", "Gene"],
   l.map (fun p => [("Isolate ID", Val.str p.1), ("Gene", Val.str p.2)])⟩

/-- A point-mutation hit table with a phenotype passthrough column. -/
def mkPhenoHits (l : List (String × String × String)) : DataFrame :=
  ⟨["Isolate ID", "Gene", "Predicted Phenotype"],
   l.map (fun p => [("Isolate ID", Val.str p.1), ("Gene", Val.str p.2.1),
                    ("Predicted Phenotype", Val.str p.2.2)])⟩

/-- A supplied hit table with zero rows. -/
def emptyHits : DataFrame := mkHits []

/-- The isolate values of a summary table, in row order. -/
def summaryIsolates (df : DataFrame) : List String := isolateStrs df.rows

/-- The cell of column `c` in the (unique) row of isolate `iso`. -/
def cellOf (df : DataFrame) (iso c : String) : Option Val :=
  (df.rows.find? (fun r => decide (getCol r "Isolate ID" = Val.str iso))).map
    (fun r => getCol r c)

/-! ### Helper definitions and facts about the program's frames -/

/-- String value of column `c` in a row, when it is not NaN. -/
def colStr (c : String) (r : Row) : Option String :=
  match getCol r c with
  | Val.str s => some s
  | Val.nan => none

/-- The gene names of isolate `k` in a list of hit rows, in row order. -/
def genesOf (rows : List Row) (k : String) : List String :=
  (groupRows rows k).filterMap (colStr "Gene")

/-- A compiled row before the `Genotype` rename. -/
def genoRow (k g : String) : Row := [("Isolate ID", Val.str k), ("Gene", Val.str g)]

/-- A compiled row after the `Genotype` rename. -/
def genotypeRow (k g : String) : Row := [("Isolate ID", Val.str k), ("Genotype", Val.str g)]

/-- The rows produced by `_compile_results` on well-formed hit rows. -/
def compiledRows (rows : List Row) : List Row :=
  (groupKeys rows).map (fun k => genoRow k (joinGenes (sortStrings (genesOf rows k))))

/-- The row transformation of `rename(columns={'Gene': 'Genotype'})`. -/
def toGenotypeRow (r : Row) : Row :=
  r.map (fun p => if p.1 = "Gene" then ("Genotype", p.2) else p)

/-- The genotype table produced when the compiled plasmid table is empty:
compiled rows, optional negative rows, the `Genotype` rename, and the final
sort by isolate. -/
def genotypePath (incl : Bool) (names : List String) (rows0 : List Row) : DataFrame :=
  sortIndexFrame (renameCol "Gene" "Genotype"
    (if incl then
       _include_negatives names ⟨["Isolate ID", "Gene"], compiledRows rows0⟩
     else ⟨["Isolate ID", "Gene"], compiledRows rows0⟩))

/-! ### The combined resfinder/pointfinder frame on well-formed inputs -/

/-- A row of the appended resfinder+pointfinder frame (sorted column union
`Gene`, `Isolate ID`, `Predicted Phenotype`; missing phenotype cells NaN). -/
def comboRow (k g : String) (ph : Val) : Row :=
  [("Gene", Val.str g), ("Isolate ID", Val.str k), ("Predicted Phenotype", ph)]

/-! ### Shape of the genotype path output -/

/-- The joined, sorted gene cell of isolate `k`. -/
def genotypeCell (rows0 : List Row) (k : String) : String :=
  joinGenes (sortStrings (genesOf rows0 k))

/-- The negative names injected for `include_negatives=True`. -/
def negNames (names : List String) (rows0 : List Row) : List String :=
  names.dedup.filter (fun n => decide (n ∉ groupKeys rows0))

/-- The frame a hit list `pf` compiles into as pointfinder input. -/
def pointInput (pf : Option (List (String × String × String))) : Option DataFrame :=
  pf.map mkPhenoHits

/-- The isolates named by the gene-detection and point-mutation hit lists. -/
def hitIsolates (res : List (String × String))
    (pf : Option (List (String × String × String))) : List String :=
  res.map Prod.fst ++ (match pf with
    | some l => l.map Prod.fst
    | none => [])

/-- The gene names listed for isolate `k` by the gene-detection and
point-mutation hit lists, in input order. -/
def hitGenesOf (res : List (String × String))
    (pf : Option (List (String × String × String))) (k : String) : List String :=
  (res.filter (fun p => decide (p.1 = k))).map Prod.snd
    ++ (match pf with
        | some l => (l.filter (fun p => decide (p.1 = k))).map (fun p => p.2.1)
        | none => [])

/-! ### The compiled plasmid table -/

/-- A compiled plasmid row after the `Plasmid Genes` rename. -/
def plasmidRow (k g : String) : Row := [("Isolate ID", Val.str k), ("Plasmid Genes", Val.str g)]

/-! ### Concrete inputs for counterexamples, bug demonstrations and witnesses -/

/-- Genotype hit on isolate A and plasmid hit on isolate A. -/
def summaryC5 : AMRDetectionSummary :=
  ⟨["A.fa"], mkHits [("A", "g1")], none, some (mkHits [("A", "p1")])⟩

/-- Genotype isolates A and B, plasmid isolates A and C. -/
def summaryC6 : AMRDetectionSummary :=
  ⟨["A.fa", "B.fa"], mkHits [("A", "gA"), ("B", "gB")], none,
   some (mkHits [("A", "pA"), ("C", "pC")])⟩

/-- Scanned isolates A and B; B has a gene hit, A only a plasmid hit. -/
def summaryC10 : AMRDetectionSummary :=
  ⟨["A.fa", "B.fa"], mkHits [("B", "gB")], none, some (mkHits [("A", "pA")])⟩

/-- Scanned file derives isolate `a`, but the hit names isolate `X`. -/
def summaryC1x : AMRDetectionSummary :=
  ⟨["a.fa"], mkHits [("X", "g1")], none, some emptyHits⟩

/-- A gene hit plus two plasmid hits on the same isolate. -/
def summaryC2x : AMRDetectionSummary :=
  ⟨["A.fa"], mkHits [("A", "gA")], none, some (mkHits [("A", "pZ"), ("A", "pA")])⟩

/-- A point-mutation hit with phenotype `Resistant`, empty plasmid table. -/
def summaryC3x : AMRDetectionSummary :=
  ⟨["A.fa"], mkHits [("A", "gA")], pointInput (some [("A", "gB", "Resistant")]),
   some emptyHits⟩

/-- No plasmid collection supplied at all. -/
def summaryC4x : AMRDetectionSummary := ⟨["A.fa"], mkHits [("A", "gA")], none, none⟩

/-- A supplied-but-empty plasmid collection. -/
def summaryC4w : AMRDetectionSummary :=
  ⟨["A.fa"], mkHits [("A", "gA")], none, some emptyHits⟩

/-- A gene hit on A and a plasmid hit on a different isolate P. -/
def summaryC7x : AMRDetectionSummary :=
  ⟨["A.fa"], mkHits [("A", "gA")], none, some (mkHits [("P", "pP")])⟩

/-- A point-mutation frame lacking the required `Isolate ID` column. -/
def pointNoIso : DataFrame := ⟨["Gene"], [[("Gene", Val.str "gB")]]⟩

/-- Well-formed resfinder input, pointfinder input lacking `Isolate ID`. -/
def summaryC9x : AMRDetectionSummary :=
  ⟨["A.fa"], mkHits [("A", "gA")], some pointNoIso, some emptyHits⟩

/-- A plasmid frame lacking the required `Gene` column. -/
def plasmidNoGene : DataFrame := ⟨["Isolate ID"], []⟩

/-- Well-formed resfinder input, plasmid collection lacking `Gene`. -/
def summaryC9w : AMRDetectionSummary :=
  ⟨["A.fa"], mkHits [("A", "gA")], none, some plasmidNoGene⟩

/-- A compiled-shape genotype table with one isolate `a`. -/
def frameC8 : DataFrame := ⟨["Isolate ID", "Gene"], [genoRow "a" "gA"]⟩

/-! ### Order lemmas for the code-point string comparison -/

theorem charToNat_inj {a b : Char} (h : a.toNat = b.toNat) : a = b :=
  Char.ext (UInt32.ext h)

theorem charsLe_cons_iff {x y : Char} {xs ys : List Char} :
    charsLe (x :: xs) (y :: ys) = true ↔
      (x.toNat < y.toNat ∨ (x.toNat = y.toNat ∧ charsLe xs ys = true)) := by
  simp only [charsLe]
  by_cases h1 : x.toNat < y.toNat
  · simp [h1]
  · by_cases h2 : y.toNat < x.toNat
    · simp [h1, h2]; omega
    · simp [h1, h2]; omega

theorem charsLe_total (a b : List Char) (h : charsLe a b = false) : charsLe b a = true := by
  induction a generalizing b with
  | nil => simp [charsLe] at h
  | cons x xs ih =>
    cases b with
    | nil => simp [charsLe]
    | cons y ys =>
      rw [Bool.eq_false_iff, Ne, charsLe_cons_iff] at h
      rw [charsLe_cons_iff]
      by_cases h1 : y.toNat < x.toNat
      · exact Or.inl h1
      · refine Or.inr ⟨by omega, ih ys ?_⟩
        rw [Bool.eq_false_iff, Ne]
        intro hc
        exact h (Or.inr ⟨by omega, hc⟩)

theorem charsLe_trans {a b c : List Char} (h1 : charsLe a b = true)
    (h2 : charsLe b c = true) : charsLe a c = true := by
  induction a generalizing b c with
  | nil => simp [charsLe]
  | cons x xs ih =>
    cases b with
    | nil => simp [charsLe] at h1
    | cons y ys =>
      cases c with
      | nil => simp [charsLe] at h2
      | cons z zs =>
        rw [charsLe_cons_iff] at h1 h2 ⊢
        rcases h1 with h1 | ⟨h1e, h1r⟩
        · rcases h2 with h2 | ⟨h2e, _⟩
          · exact Or.inl (by omega)
          · exact Or.inl (by omega)
        · rcases h2 with h2 | ⟨h2e, h2r⟩
          · exact Or.inl (by omega)
          · exact Or.inr ⟨by omega, ih h1r h2r⟩

theorem charsLe_antisymm {a b : List Char} (h1 : charsLe a b = true)
    (h2 : charsLe b a = true) : a = b := by
  induction a generalizing b with
  | nil =>
    cases b with
    | nil => rfl
    | cons y ys => simp [charsLe] at h2
  | cons x xs ih =>
    cases b with
    | nil => simp [charsLe] at h1
    | cons y ys =>
      rw [charsLe_cons_iff] at h1 h2
      rcases h1 with h1 | ⟨h1e, h1r⟩
      · rcases h2 with h2 | ⟨h2e, _⟩ <;> omega
      · rcases h2 with h2 | ⟨h2e, h2r⟩
        · omega
        · rw [charToNat_inj h1e, ih h1r h2r]

theorem strLe_total (a b : String) (h : strLe a b = false) : strLe b a = true :=
  charsLe_total _ _ h

theorem strLe_trans {a b c : String} (h1 : strLe a b = true) (h2 : strLe b c = true) :
    strLe a c = true :=
  charsLe_trans h1 h2

theorem strLe_antisymm {a b : String} (h1 : strLe a b = true) (h2 : strLe b a = true) :
    a = b :=
  String.ext (charsLe_antisymm h1 h2)

theorem strLe_refl (a : String) : strLe a a = true := by
  by_cases h : strLe a a = true
  · exact h
  · exact strLe_total a a (by simp at h; exact h)

theorem leVal_total (a b : Val) (h : leVal a b = false) : leVal b a = true := by
  cases a <;> cases b <;> simp [leVal] at h ⊢
  exact strLe_total _ _ h

theorem leVal_trans {a b c : Val} (h1 : leVal a b = true) (h2 : leVal b c = true) :
    leVal a c = true := by
  cases a <;> cases b <;> cases c <;> simp [leVal] at h1 h2 ⊢
  exact strLe_trans h1 h2

theorem rowLe_total (c : String) (r s : Row) (h : rowLe c r s = false) :
    rowLe c s r = true :=
  leVal_total _ _ h

theorem rowLe_trans (c : String) {r s t : Row} (h1 : rowLe c r s = true)
    (h2 : rowLe c s t = true) : rowLe c r t = true :=
  leVal_trans h1 h2

/-! ### Generic lemmas about the stable insertion sort -/

theorem mem_insBy {α : Type} (le : α → α → Bool) (x : α) (l : List α) (y : α) :
    y ∈ insBy le x l ↔ y = x ∨ y ∈ l := by
  induction l with
  | nil => simp [insBy]
  | cons z zs ih =>
    simp only [insBy]
    by_cases h : le x z = true
    · simp [h]
    · simp only [if_neg h, List.mem_cons, ih]
      tauto

theorem insBy_perm {α : Type} (le : α → α → Bool) (x : α) (l : List α) :
    List.Perm (insBy le x l) (x :: l) := by
  induction l with
  | nil => simp [insBy]
  | cons z zs ih =>
    simp only [insBy]
    by_cases h : le x z = true
    · simp [h]
    · rw [if_neg h]
      exact (ih.cons z).trans (List.Perm.swap x z zs)

theorem sortBy_perm {α : Type} (le : α → α → Bool) (l : List α) :
    List.Perm (sortBy le l) l := by
  induction l with
  | nil => simp [sortBy]
  | cons x xs ih => exact (insBy_perm le x (sortBy le xs)).trans (ih.cons x)

theorem pairwise_insBy {α : Type} {le : α → α → Bool}
    (htot : ∀ a b, le a b = false → le b a = true)
    (htrans : ∀ {a b c}, le a b = true → le b c = true → le a c = true)
    {x : α} {l : List α} (h : l.Pairwise (fun a b => le a b = true)) :
    (insBy le x l).Pairwise (fun a b => le a b = true) := by
  induction l with
  | nil => simp [insBy]
  | cons z zs ih =>
    rcases List.pairwise_cons.mp h with ⟨hz, hzs⟩
    simp only [insBy]
    by_cases hle : le x z = true
    · rw [if_pos hle]
      refine List.pairwise_cons.mpr ⟨?_, h⟩
      intro y hy
      rcases List.mem_cons.mp hy with rfl | hy
      · exact hle
      · exact htrans hle (hz y hy)
    · rw [if_neg hle]
      refine List.pairwise_cons.mpr ⟨?_, ih hzs⟩
      intro y hy
      rcases (mem_insBy le x zs y).mp hy with rfl | hy
      · exact htot _ _ (by simpa using hle)
      · exact hz y hy

theorem pairwise_sortBy {α : Type} {le : α → α → Bool}
    (htot : ∀ a b, le a b = false → le b a = true)
    (htrans : ∀ {a b c}, le a b = true → le b c = true → le a c = true)
    (l : List α) : (sortBy le l).Pairwise (fun a b => le a b = true) := by
  induction l with
  | nil => simp [sortBy]
  | cons x xs ih => exact pairwise_insBy htot htrans ih

theorem sortBy_eq_of_perm {α : Type} {le : α → α → Bool}
    (htot : ∀ a b, le a b = false → le b a = true)
    (htrans : ∀ {a b c}, le a b = true → le b c = true → le a c = true)
    (hanti : ∀ {a b}, le a b = true → le b a = true → a = b)
    {l₁ l₂ : List α} (h : List.Perm l₁ l₂) : sortBy le l₁ = sortBy le l₂ := by
  haveI : IsAntisymm α (fun a b => le a b = true) := ⟨fun _ _ => hanti⟩
  exact List.eq_of_perm_of_sorted
    (((sortBy_perm le l₁).trans h).trans (sortBy_perm le l₂).symm)
    (pairwise_sortBy htot htrans l₁) (pairwise_sortBy htot htrans l₂)

theorem insBy_eq_cons {α : Type} {le : α → α → Bool} {x : α} {m : List α}
    (h : ∀ z ∈ m, le x z = true) : insBy le x m = x :: m := by
  cases m with
  | nil => rfl
  | cons z zs => simp [insBy, h z (List.mem_cons_self z zs)]

theorem filter_insBy_neg {α : Type} (le : α → α → Bool) (p : α → Bool) {x : α}
    (l : List α) (hx : p x = false) : (insBy le x l).filter p = l.filter p := by
  induction l with
  | nil => simp [insBy, hx]
  | cons y ys ih =>
    simp only [insBy]
    by_cases hle : le x y = true
    · rw [if_pos hle, List.filter_cons, List.filter_cons, hx]
      simp
    · rw [if_neg hle, List.filter_cons, List.filter_cons]
      cases hpy : p y <;> simp [ih]

theorem filter_insBy_pos {α : Type} (le : α → α → Bool)
    (htrans : ∀ {a b c}, le a b = true → le b c = true → le a c = true)
    (p : α → Bool) {x : α} {l : List α} (hx : p x = true)
    (hs : l.Pairwise (fun a b => le a b = true)) :
    (insBy le x l).filter p = insBy le x (l.filter p) := by
  induction l with
  | nil => simp [insBy, hx]
  | cons y ys ih =>
    rcases List.pairwise_cons.mp hs with ⟨hy, hys⟩
    simp only [insBy]
    by_cases hle : le x y = true
    · rw [if_pos hle, List.filter_cons, hx]
      simp only [if_true]
      rw [List.filter_cons]
      cases hpy : p y with
      | true =>
        simp only [if_true]
        rw [insBy_eq_cons]
        intro z hz
        rcases List.mem_cons.mp hz with rfl | hz
        · exact hle
        · exact htrans hle (hy z (List.mem_of_mem_filter hz))
      | false =>
        simp only [Bool.false_eq_true, if_false]
        rw [insBy_eq_cons]
        intro z hz
        exact htrans hle (hy z (List.mem_of_mem_filter hz))
    · rw [if_neg hle, List.filter_cons, List.filter_cons]
      cases hpy : p y with
      | true =>
        simp only [if_true]
        rw [ih hys, insBy]
        rw [if_neg hle]
      | false =>
        simp only [Bool.false_eq_true, if_false]
        exact ih hys

theorem filter_sortBy {α : Type} {le : α → α → Bool}
    (htot : ∀ a b, le a b = false → le b a = true)
    (htrans : ∀ {a b c}, le a b = true → le b c = true → le a c = true)
    (p : α → Bool) (l : List α) :
    (sortBy le l).filter p = sortBy le (l.filter p) := by
  induction l with
  | nil => simp [sortBy]
  | cons x xs ih =>
    simp only [sortBy]
    cases hx : p x with
    | true =>
      rw [filter_insBy_pos le htrans p hx (pairwise_sortBy htot htrans xs), ih,
        List.filter_cons, hx]
      simp [sortBy]
    | false =>
      rw [filter_insBy_neg le p _ hx, ih, List.filter_cons, hx]
      simp

theorem filterMap_insBy_some {α β : Type} {le : α → α → Bool} (le' : β → β → Bool)
    {g : α → Option β} {x : α} {l : List α} {sx : β} (hx : g x = some sx)
    (hall : ∀ a ∈ l, ∃ s, g a = some s)
    (hcomp : ∀ a ∈ l, ∀ sa, g a = some sa → le x a = le' sx sa) :
    (insBy le x l).filterMap g = insBy le' sx (l.filterMap g) := by
  induction l with
  | nil => simp [insBy, List.filterMap_cons, hx]
  | cons y ys ih =>
    rcases hall y (List.mem_cons_self y ys) with ⟨sy, hy⟩
    simp only [insBy]
    by_cases hle : le x y = true
    · rw [if_pos hle]
      rw [List.filterMap_cons, hx, List.filterMap_cons, hy]
      have : le' sx sy = true := by rw [← hcomp y (List.mem_cons_self y ys) sy hy]; exact hle
      simp [insBy, this]
    · rw [if_neg hle]
      rw [List.filterMap_cons, hy, List.filterMap_cons, hy]
      have hxy : le' sx sy = false := by
        rw [← hcomp y (List.mem_cons_self y ys) sy hy]
        simpa using hle
      rw [ih (fun a ha => hall a (List.mem_cons_of_mem y ha))
            (fun a ha sa hsa => hcomp a (List.mem_cons_of_mem y ha) sa hsa)]
      simp [insBy, hxy]

theorem filterMap_sortBy {α β : Type} {le : α → α → Bool} (le' : β → β → Bool)
    (g : α → Option β) (l : List α)
    (hall : ∀ a ∈ l, ∃ s, g a = some s)
    (hcomp : ∀ a ∈ l, ∀ b ∈ l, ∀ sa sb, g a = some sa → g b = some sb →
      le a b = le' sa sb) :
    (sortBy le l).filterMap g = sortBy le' (l.filterMap g) := by
  induction l with
  | nil => simp [sortBy]
  | cons x xs ih =>
    rcases hall x (List.mem_cons_self x xs) with ⟨sx, hx⟩
    simp only [sortBy]
    rw [filterMap_insBy_some le' hx]
    · rw [ih (fun a ha => hall a (List.mem_cons_of_mem x ha))
            (fun a ha b hb sa sb hsa hsb =>
              hcomp a (List.mem_cons_of_mem x ha) b (List.mem_cons_of_mem x hb) sa sb hsa hsb),
          List.filterMap_cons, hx]
      simp [sortBy]
    · intro a ha
      exact hall a (List.mem_cons_of_mem x ((sortBy_perm le xs).mem_iff.mp ha))
    · intro a ha sa hsa
      exact hcomp x (List.mem_cons_self x xs) a
        (List.mem_cons_of_mem x ((sortBy_perm le xs).mem_iff.mp ha)) sx sa hx hsa

theorem isoStr_eq_colStr : isoStr = colStr "Isolate ID" := rfl

theorem getCol_cons (c : String) (v : Val) (r : Row) (c' : String) :
    getCol ((c, v) :: r) c' = if c = c' then v else getCol r c' := by
  by_cases h : c = c'
  · subst h; simp [getCol, List.find?]
  · simp [getCol, List.find?, h]

theorem isoStr_genoRow (k g : String) : isoStr (genoRow k g) = some k := rfl

theorem isoStr_genotypeRow (k g : String) : isoStr (genotypeRow k g) = some k := rfl

theorem groupKeys_sortBy (le : Row → Row → Bool) (rows : List Row) :
    groupKeys (sortBy le rows) = groupKeys rows := by
  unfold groupKeys isolateStrs
  exact sortBy_eq_of_perm strLe_total strLe_trans strLe_antisymm
    (((sortBy_perm le rows).filterMap isoStr).dedup)

theorem mem_groupRows {rows : List Row} {k : String} {r : Row} :
    r ∈ groupRows rows k ↔ r ∈ rows ∧ getCol r "Isolate ID" = Val.str k := by
  simp [groupRows, List.mem_filter]

theorem genesOf_sortBy (rows : List Row) (k : String)
    (h : ∀ r ∈ groupRows rows k, ∃ g, getCol r "Gene" = Val.str g) :
    genesOf (sortBy (rowLe "Gene") rows) k = sortStrings (genesOf rows k) := by
  unfold genesOf groupRows
  rw [filter_sortBy (rowLe_total "Gene") (rowLe_trans "Gene")]
  rw [filterMap_sortBy strLe (colStr "Gene")]
  · rfl
  · intro r hr
    rcases h r (by simpa [groupRows] using hr) with ⟨g, hg⟩
    exact ⟨g, by simp [colStr, hg]⟩
  · intro a ha b hb sa sb hsa hsb
    have hga : getCol a "Gene" = Val.str sa := by
      simp only [colStr] at hsa
      cases hg : getCol a "Gene" <;> rw [hg] at hsa <;> simp at hsa
      rw [hsa]
    have hgb : getCol b "Gene" = Val.str sb := by
      simp only [colStr] at hsb
      cases hg : getCol b "Gene" <;> rw [hg] at hsb <;> simp at hsb
      rw [hsb]
    simp [rowLe, hga, hgb, leVal]

theorem strVals_of_all {vs : List Val} (h : ∀ v ∈ vs, ∃ s, v = Val.str s) :
    strVals vs
      = some (vs.filterMap (fun v => match v with
          | Val.str s => some s
          | Val.nan => none)) := by
  induction vs with
  | nil => rfl
  | cons v vs ih =>
    rcases h v (List.mem_cons_self v vs) with ⟨s, rfl⟩
    rw [List.filterMap_cons]
    simp only [strVals, ih (fun w hw => h w (List.mem_cons_of_mem _ hw))]

theorem buildRows_eq (sorted : List Row) (ks : List String)
    (h : ∀ k ∈ ks, ∀ r ∈ groupRows sorted k, ∃ g, getCol r "Gene" = Val.str g) :
    buildRows sorted ks
      = some (ks.map (fun k => genoRow k (joinGenes (genesOf sorted k)))) := by
  induction ks with
  | nil => rfl
  | cons k ks ih =>
    have h1 : strVals ((groupRows sorted k).map (fun r => getCol r "Gene"))
        = some (genesOf sorted k) := by
      rw [strVals_of_all]
      · rw [List.filterMap_map]
        rfl
      · intro v hv
        rcases List.mem_map.mp hv with ⟨r, hr, rfl⟩
        exact h k (List.mem_cons_self k ks) r hr
    simp only [buildRows, h1, ih (fun k2 hk2 => h k2 (List.mem_cons_of_mem k hk2)),
      List.map_cons]
    rfl

theorem compile_results_eq {df : DataFrame}
    (hg : "Gene" ∈ df.cols) (hi : "Isolate ID" ∈ df.cols)
    (h : ∀ r ∈ df.rows, (∃ s, getCol r "Isolate ID" = Val.str s) →
      ∃ g, getCol r "Gene" = Val.str g) :
    _compile_results df = Except.ok ⟨["Isolate ID", "Gene"], compiledRows df.rows⟩ := by
  have hgrp : ∀ k, ∀ r ∈ groupRows (sortBy (rowLe "Gene") df.rows) k,
      ∃ g, getCol r "Gene" = Val.str g := by
    intro k r hr
    rcases mem_groupRows.mp hr with ⟨hr1, hr2⟩
    exact h r ((sortBy_perm (rowLe "Gene") df.rows).mem_iff.mp hr1) ⟨k, hr2⟩
  have hgrp2 : ∀ k, ∀ r ∈ groupRows df.rows k, ∃ g, getCol r "Gene" = Val.str g := by
    intro k r hr
    rcases mem_groupRows.mp hr with ⟨hr1, hr2⟩
    exact h r hr1 ⟨k, hr2⟩
  simp only [_compile_results, if_pos hg, if_pos hi]
  rw [buildRows_eq _ _ (fun k _ => hgrp k)]
  rw [groupKeys_sortBy]
  have : ∀ k, genesOf (sortBy (rowLe "Gene") df.rows) k = sortStrings (genesOf df.rows k) :=
    fun k => genesOf_sortBy df.rows k (hgrp2 k)
  simp only [this]
  rfl

/-! ### The genotype path of `create_summary` -/

theorem colStr_some {c : String} {r : Row} {s : String} :
    colStr c r = some s ↔ getCol r c = Val.str s := by
  cases h : getCol r c <;> simp [colStr, h]

theorem isoStr_some {r : Row} {s : String} :
    isoStr r = some s ↔ getCol r "Isolate ID" = Val.str s := by
  rw [isoStr_eq_colStr]
  exact colStr_some

theorem rename_gene_frame (rows : List Row) :
    renameCol "Gene" "Genotype" ⟨["Isolate ID", "Gene"], rows⟩
      = ⟨["Isolate ID", "Genotype"], rows.map toGenotypeRow⟩ := rfl

theorem toGenotypeRow_genoRow (k g : String) :
    toGenotypeRow (genoRow k g) = genotypeRow k g := rfl

theorem map_id_of_mem {α : Type} {f : α → α} {l : List α} (h : ∀ a ∈ l, f a = a) :
    l.map f = l := by
  induction l with
  | nil => rfl
  | cons x xs ih =>
    rw [List.map_cons, h x (List.mem_cons_self x xs),
      ih (fun a ha => h a (List.mem_cons_of_mem x ha))]

/-- Rebuilding a compiled-shape row in column order is the identity. -/
theorem rebuild_genoRow (k g : String) :
    (["Isolate ID", "Gene"]).map (fun c => (c, getCol (genoRow k g) c)) = genoRow k g := rfl

theorem include_negatives_eq (names : List String) (rows : List Row)
    (hshape : ∀ r ∈ rows, ∃ k g, r = genoRow k g) :
    _include_negatives names ⟨["Isolate ID", "Gene"], rows⟩
      = ⟨["Isolate ID", "Gene"],
         rows ++ (names.dedup.filter (fun n => decide (n ∉ isolateStrs rows))).map
           (fun n => genoRow n "None")⟩ := by
  unfold _include_negatives appendFrames
  simp only [if_pos rfl, List.map_append, List.map_map]
  congr 1
  congr 1
  apply map_id_of_mem
  intro r hr
  rcases hshape r hr with ⟨k, g, rfl⟩
  exact rebuild_genoRow k g

theorem isolateStrs_append (a b : List Row) :
    isolateStrs (a ++ b) = isolateStrs a ++ isolateStrs b :=
  List.filterMap_append a b isoStr

theorem isolateStrs_map_genoRow (f : String → String) (ks : List String) :
    isolateStrs (ks.map (fun k => genoRow k (f k))) = ks := by
  induction ks with
  | nil => rfl
  | cons k ks ih =>
    simp only [List.map_cons, isolateStrs, List.filterMap_cons] at ih ⊢
    rw [isoStr_genoRow]
    simp only [ih]

theorem isolateStrs_map_genotypeRow (f : String → String) (ks : List String) :
    isolateStrs (ks.map (fun k => genotypeRow k (f k))) = ks := by
  induction ks with
  | nil => rfl
  | cons k ks ih =>
    simp only [List.map_cons, isolateStrs, List.filterMap_cons] at ih ⊢
    rw [isoStr_genotypeRow]
    simp only [ih]

theorem isolateStrs_sortIndex (rows : List Row)
    (h : ∀ r ∈ rows, ∃ s, isoStr r = some s) :
    isolateStrs (sortBy (rowLe "Isolate ID") rows) = sortStrings (isolateStrs rows) := by
  unfold isolateStrs sortStrings
  rw [filterMap_sortBy strLe isoStr rows h]
  intro a ha b hb sa sb hsa hsb
  rw [isoStr_some] at hsa hsb
  simp [rowLe, hsa, hsb, leVal]

theorem compiledRows_shape (rows : List Row) :
    ∀ r ∈ compiledRows rows, ∃ k g, r = genoRow k g := by
  intro r hr
  rcases List.mem_map.mp hr with ⟨k, _, rfl⟩
  exact ⟨k, _, rfl⟩

theorem isolateStrs_compiledRows (rows : List Row) :
    isolateStrs (compiledRows rows) = groupKeys rows :=
  isolateStrs_map_genoRow _ (groupKeys rows)

theorem compile_plasmids_empty {p : DataFrame} (hpg : "Gene" ∈ p.cols)
    (hpi : "Isolate ID" ∈ p.cols) (hpr : p.rows = []) :
    _compile_plasmids p = Except.ok ⟨["Isolate ID", "Plasmid Genes"], []⟩ := by
  unfold _compile_plasmids
  rw [compile_results_eq hpg hpi (by rw [hpr]; intro r hr; cases hr)]
  rw [hpr]
  rfl

theorem create_summary_plasmid_empty (a : AMRDetectionSummary) (incl : Bool)
    (p : DataFrame) (hp : a.plasmidfinder_dataframe = some p)
    (hpg : "Gene" ∈ p.cols) (hpi : "Isolate ID" ∈ p.cols) (hpr : p.rows = [])
    (hg : "Gene" ∈ (combinedFrame a).cols) (hi : "Isolate ID" ∈ (combinedFrame a).cols)
    (hwf : ∀ r ∈ (combinedFrame a).rows, (∃ s, getCol r "Isolate ID" = Val.str s) →
      ∃ g, getCol r "Gene" = Val.str g) :
    create_summary a incl = Except.ok (genotypePath incl a.names (combinedFrame a).rows) := by
  unfold create_summary
  rw [compile_results_eq hg hi hwf]
  have hds : plasmidCompiled a = Except.ok ⟨["Isolate ID", "Plasmid Genes"], []⟩ := by
    unfold plasmidCompiled
    rw [hp]
    exact compile_plasmids_empty hpg hpi hpr
  rw [hds]
  rfl

/-! ### Generic helpers for rows built by a constructor -/

theorem isolateStrs_map {α : Type} (mk : α → Row) (f : α → String) (l : List α)
    (h : ∀ x, isoStr (mk x) = some (f x)) : isolateStrs (l.map mk) = l.map f := by
  induction l with
  | nil => rfl
  | cons x xs ih =>
    simp only [List.map_cons, isolateStrs, List.filterMap_cons] at ih ⊢
    rw [h x]
    simp only [ih]

theorem find?_eq_of_unique {α : Type} {p : α → Bool} {l : List α} (r : α)
    (hr : r ∈ l) (hp : p r = true) (huniq : ∀ x ∈ l, p x = true → x = r) :
    l.find? p = some r := by
  induction l with
  | nil => cases hr
  | cons y ys ih =>
    by_cases hy : p y = true
    · have : y = r := huniq y (List.mem_cons_self y ys) hy
      subst this
      simp [List.find?, hy]
    · have hpy : p y = false := by simpa using hy
      rw [List.find?_cons, hpy]
      rcases List.mem_cons.mp hr with rfl | hr2
      · exact absurd hp hy
      · exact ih hr2 (fun x hx hpx => huniq x (List.mem_cons_of_mem y hx) hpx)

theorem mem_sortStrings {l : List String} {s : String} :
    s ∈ sortStrings l ↔ s ∈ l :=
  (sortBy_perm strLe l).mem_iff

theorem mem_groupKeys {rows : List Row} {k : String} :
    k ∈ groupKeys rows ↔ k ∈ isolateStrs rows := by
  unfold groupKeys
  rw [mem_sortStrings, List.mem_dedup]

theorem groupKeys_nodup (rows : List Row) : (groupKeys rows).Nodup :=
  (sortBy_perm strLe (isolateStrs rows).dedup).symm.nodup (List.nodup_dedup _)

theorem sortStrings_sortStrings (l : List String) :
    sortStrings (sortStrings l) = sortStrings l :=
  sortBy_eq_of_perm strLe_total strLe_trans strLe_antisymm (sortBy_perm strLe l)

theorem sortStrings_groupKeys (rows : List Row) :
    sortStrings (groupKeys rows) = groupKeys rows :=
  sortStrings_sortStrings (isolateStrs rows).dedup

theorem isoStr_comboRow (k g : String) (ph : Val) : isoStr (comboRow k g ph) = some k := rfl

theorem mkHits_eq (l : List (String × String)) :
    mkHits l = ⟨["Isolate ID", "Gene"], l.map (fun p => genoRow p.1 p.2)⟩ := rfl

theorem combined_none (files : List String) (res : List (String × String))
    (pl : Option DataFrame) :
    combinedFrame ⟨files, mkHits res, none, pl⟩ = mkHits res := rfl

theorem combined_pheno (files : List String) (res : List (String × String))
    (pf : List (String × String × String)) (pl : Option DataFrame) :
    combinedFrame ⟨files, mkHits res, some (mkPhenoHits pf), pl⟩
      = ⟨["Gene", "Isolate ID", "Predicted Phenotype"],
         res.map (fun p => comboRow p.1 p.2 Val.nan)
           ++ pf.map (fun p => comboRow p.1 p.2.1 (Val.str p.2.2))⟩ := by
  show appendFrames (mkHits res) (mkPhenoHits pf) = _
  unfold appendFrames
  simp only [mkHits, mkPhenoHits]
  rw [if_neg (by decide)]
  have hcs : sortStrings (["Isolate ID", "Gene"]
      ++ (["Isolate ID", "Gene", "Predicted Phenotype"].filter
            (fun c => decide (c ∉ ["Isolate ID", "Gene"]))))
      = ["Gene", "Isolate ID", "Predicted Phenotype"] := by decide
  simp only [hcs, List.map_append, List.map_map]
  congr 1

theorem genotypePath_rows_true (names : List String) (rows0 : List Row) :
    (genotypePath true names rows0).rows
      = sortBy (rowLe "Isolate ID")
          ((groupKeys rows0).map (fun k => genotypeRow k (genotypeCell rows0 k))
            ++ (negNames names rows0).map (fun n => genotypeRow n "None")) := by
  unfold genotypePath
  rw [if_pos rfl]
  rw [include_negatives_eq names (compiledRows rows0) (compiledRows_shape rows0)]
  rw [isolateStrs_compiledRows]
  rw [rename_gene_frame]
  unfold sortIndexFrame
  simp only [List.map_append, List.map_map]
  unfold compiledRows negNames genotypeCell
  simp only [List.map_map]
  rfl

theorem genotypePath_rows_false (names : List String) (rows0 : List Row) :
    (genotypePath false names rows0).rows
      = sortBy (rowLe "Isolate ID")
          ((groupKeys rows0).map (fun k => genotypeRow k (genotypeCell rows0 k))) := by
  unfold genotypePath
  rw [if_neg (by simp)]
  rw [rename_gene_frame]
  unfold sortIndexFrame
  unfold compiledRows genotypeCell
  simp only [List.map_map]
  rfl

theorem genotypePath_cols (incl : Bool) (names : List String) (rows0 : List Row) :
    (genotypePath incl names rows0).cols = ["Isolate ID", "Genotype"] := by
  unfold genotypePath
  cases incl with
  | true =>
    rw [if_pos rfl]
    rw [include_negatives_eq names (compiledRows rows0) (compiledRows_shape rows0)]
    rfl
  | false => rfl

theorem genotypePath_isolates_true (names : List String) (rows0 : List Row) :
    summaryIsolates (genotypePath true names rows0)
      = sortStrings (groupKeys rows0 ++ negNames names rows0) := by
  unfold summaryIsolates
  rw [genotypePath_rows_true]
  rw [isolateStrs_sortIndex]
  · rw [isolateStrs_append,
      isolateStrs_map (fun k => genotypeRow k (genotypeCell rows0 k)) id _
        (fun k => isoStr_genotypeRow k _),
      isolateStrs_map (fun n => genotypeRow n "None") id _
        (fun n => isoStr_genotypeRow n _),
      List.map_id, List.map_id]
  · intro r hr
    rcases List.mem_append.mp hr with h | h
    · rcases List.mem_map.mp h with ⟨k, _, rfl⟩
      exact ⟨k, isoStr_genotypeRow k _⟩
    · rcases List.mem_map.mp h with ⟨n, _, rfl⟩
      exact ⟨n, isoStr_genotypeRow n _⟩

theorem genotypePath_isolates_false (names : List String) (rows0 : List Row) :
    summaryIsolates (genotypePath false names rows0) = groupKeys rows0 := by
  unfold summaryIsolates
  rw [genotypePath_rows_false]
  rw [isolateStrs_sortIndex]
  · rw [isolateStrs_map (fun k => genotypeRow k (genotypeCell rows0 k)) id _
        (fun k => isoStr_genotypeRow k _),
      List.map_id, sortStrings_groupKeys]
  · intro r hr
    rcases List.mem_map.mp hr with ⟨k, _, rfl⟩
    exact ⟨k, isoStr_genotypeRow k _⟩

theorem cell_lookup (ks negs : List String) (F : String → String) (k : String)
    (hk : k ∈ ks) (hdisj : ∀ n ∈ negs, n ∉ ks) :
    ((sortBy (rowLe "Isolate ID")
        (ks.map (fun k2 => genotypeRow k2 (F k2))
          ++ negs.map (fun n => genotypeRow n "None"))).find?
       (fun r => decide (getCol r "Isolate ID" = Val.str k))).map
      (fun r => getCol r "Genotype")
      = some (Val.str (F k)) := by
  have hmem : genotypeRow k (F k) ∈ sortBy (rowLe "Isolate ID")
      (ks.map (fun k2 => genotypeRow k2 (F k2)) ++ negs.map (fun n => genotypeRow n "None")) :=
    (sortBy_perm (rowLe "Isolate ID") _).mem_iff.mpr
      (List.mem_append.mpr (Or.inl (List.mem_map.mpr ⟨k, hk, rfl⟩)))
  have hp : (fun r => decide (getCol r "Isolate ID" = Val.str k)) (genotypeRow k (F k))
      = true := by
    simp [isoStr_some.mp (isoStr_genotypeRow k (F k))]
  have huniq : ∀ x ∈ sortBy (rowLe "Isolate ID")
      (ks.map (fun k2 => genotypeRow k2 (F k2)) ++ negs.map (fun n => genotypeRow n "None")),
      (fun r => decide (getCol r "Isolate ID" = Val.str k)) x = true →
      x = genotypeRow k (F k) := by
    intro x hx hpx
    have hx2 := (sortBy_perm (rowLe "Isolate ID") _).mem_iff.mp hx
    rcases List.mem_append.mp hx2 with h | h
    · rcases List.mem_map.mp h with ⟨k2, _, rfl⟩
      have hv : Val.str k2 = Val.str k := by
        simpa [isoStr_some.mp (isoStr_genotypeRow k2 (F k2))] using hpx
      rw [Val.str.injEq] at hv
      rw [hv]
    · rcases List.mem_map.mp h with ⟨n, hn, rfl⟩
      have hv : Val.str n = Val.str k := by
        simpa [isoStr_some.mp (isoStr_genotypeRow n "None")] using hpx
      rw [Val.str.injEq] at hv
      subst hv
      exact absurd hk (hdisj n hn)
  rw [find?_eq_of_unique (genotypeRow k (F k)) hmem hp huniq]
  rfl

theorem genotypePath_cell (incl : Bool) (names : List String) (rows0 : List Row)
    (k : String) (hk : k ∈ groupKeys rows0) :
    cellOf (genotypePath incl names rows0) k "Genotype"
      = some (Val.str (genotypeCell rows0 k)) := by
  unfold cellOf
  cases incl with
  | true =>
    rw [genotypePath_rows_true]
    exact cell_lookup (groupKeys rows0) (negNames names rows0) _ k hk
      (fun n hn => by
        have := (List.mem_filter.mp hn).2
        simpa using this)
  | false =>
    rw [genotypePath_rows_false]
    have := cell_lookup (groupKeys rows0) [] (genotypeCell rows0) k hk
      (fun n hn => by cases hn)
    simpa using this

/-! ### Completeness of the negative-augmented isolate set -/

theorem keys_negs_perm (ks names : List String) (hnodup : ks.Nodup)
    (hsub : ∀ k ∈ ks, k ∈ names) :
    List.Perm (ks ++ names.dedup.filter (fun n => decide (n ∉ ks))) names.dedup := by
  have base := List.filter_append_perm (fun n => decide (n ∈ ks)) names.dedup
  simp only [← decide_not] at base
  have perm1 : List.Perm ks (names.dedup.filter (fun n => decide (n ∈ ks))) := by
    rw [List.perm_ext_iff_of_nodup hnodup (List.Nodup.filter _ (List.nodup_dedup names))]
    intro a
    constructor
    · intro ha
      exact List.mem_filter.mpr ⟨List.mem_dedup.mpr (hsub a ha), by simp [ha]⟩
    · intro ha
      have := (List.mem_filter.mp ha).2
      simpa using this
  exact (List.Perm.append perm1 (List.Perm.refl _)).trans base

theorem genotypePath_isolates_dedup_perm (names : List String) (rows0 : List Row)
    (hsub : ∀ k ∈ isolateStrs rows0, k ∈ names) :
    List.Perm (summaryIsolates (genotypePath true names rows0)) names.dedup := by
  rw [genotypePath_isolates_true]
  refine (sortBy_perm strLe _).trans ?_
  unfold negNames
  exact keys_negs_perm (groupKeys rows0) names (groupKeys_nodup rows0)
    (fun k hk => hsub k (mem_groupKeys.mp hk))

theorem genotypePath_true_length (names : List String) (rows0 : List Row) :
    (genotypePath true names rows0).rows.length
      = (summaryIsolates (genotypePath true names rows0)).length := by
  rw [genotypePath_rows_true, genotypePath_isolates_true]
  unfold sortStrings
  rw [(sortBy_perm (rowLe "Isolate ID") _).length_eq, (sortBy_perm strLe _).length_eq]
  simp

theorem genotypePath_false_length (names : List String) (rows0 : List Row) :
    (genotypePath false names rows0).rows.length
      = (summaryIsolates (genotypePath false names rows0)).length := by
  rw [genotypePath_rows_false, genotypePath_isolates_false]
  rw [(sortBy_perm (rowLe "Isolate ID") _).length_eq]
  simp

/-! ### The input families used by the quantified theorems -/

theorem isolateStrs_mkHits (res : List (String × String)) :
    isolateStrs (mkHits res).rows = res.map Prod.fst := by
  show isolateStrs (res.map (fun p => genoRow p.1 p.2)) = _
  exact isolateStrs_map (fun p => genoRow p.1 p.2) Prod.fst res (fun p => isoStr_genoRow p.1 p.2)

theorem isolateStrs_comboRows (res : List (String × String))
    (pf : List (String × String × String)) :
    isolateStrs (res.map (fun p => comboRow p.1 p.2 Val.nan)
        ++ pf.map (fun p => comboRow p.1 p.2.1 (Val.str p.2.2)))
      = res.map Prod.fst ++ pf.map Prod.fst := by
  rw [isolateStrs_append,
    isolateStrs_map (fun p => comboRow p.1 p.2 Val.nan) Prod.fst res
      (fun p => isoStr_comboRow p.1 p.2 Val.nan),
    isolateStrs_map (fun p => comboRow p.1 p.2.1 (Val.str p.2.2)) Prod.fst pf
      (fun p => isoStr_comboRow p.1 p.2.1 (Val.str p.2.2))]

theorem wf_genoRows (rows : List Row) (hshape : ∀ r ∈ rows, ∃ k g, r = genoRow k g) :
    ∀ r ∈ rows, (∃ s, getCol r "Isolate ID" = Val.str s) →
      ∃ g, getCol r "Gene" = Val.str g := by
  intro r hr _
  rcases hshape r hr with ⟨k, g, rfl⟩
  exact ⟨g, rfl⟩

theorem wf_comboRows (res : List (String × String)) (pf : List (String × String × String)) :
    ∀ r ∈ (res.map (fun p => comboRow p.1 p.2 Val.nan)
        ++ pf.map (fun p => comboRow p.1 p.2.1 (Val.str p.2.2))),
      (∃ s, getCol r "Isolate ID" = Val.str s) → ∃ g, getCol r "Gene" = Val.str g := by
  intro r hr _
  rcases List.mem_append.mp hr with h | h
  · rcases List.mem_map.mp h with ⟨p, _, rfl⟩
    exact ⟨p.2, rfl⟩
  · rcases List.mem_map.mp h with ⟨p, _, rfl⟩
    exact ⟨p.2.1, rfl⟩

theorem combined_isolates (files : List String) (res : List (String × String))
    (pf : Option (List (String × String × String))) (pl : Option DataFrame) :
    isolateStrs (combinedFrame ⟨files, mkHits res, pointInput pf, pl⟩).rows
      = hitIsolates res pf := by
  cases pf with
  | none =>
    show isolateStrs (mkHits res).rows = _
    rw [isolateStrs_mkHits]
    simp [hitIsolates]
  | some l =>
    show isolateStrs (combinedFrame ⟨files, mkHits res, some (mkPhenoHits l), pl⟩).rows = _
    rw [combined_pheno]
    exact isolateStrs_comboRows res l

theorem combined_wf (files : List String) (res : List (String × String))
    (pf : Option (List (String × String × String))) (pl : Option DataFrame) :
    ∀ r ∈ (combinedFrame ⟨files, mkHits res, pointInput pf, pl⟩).rows,
      (∃ s, getCol r "Isolate ID" = Val.str s) → ∃ g, getCol r "Gene" = Val.str g := by
  cases pf with
  | none =>
    show ∀ r ∈ (mkHits res).rows, _
    refine wf_genoRows _ ?_
    intro r hr
    rcases List.mem_map.mp hr with ⟨p, _, rfl⟩
    exact ⟨p.1, p.2, rfl⟩
  | some l =>
    show ∀ r ∈ (combinedFrame ⟨files, mkHits res, some (mkPhenoHits l), pl⟩).rows, _
    rw [combined_pheno]
    exact wf_comboRows res l

theorem combined_cols_gene (files : List String) (res : List (String × String))
    (pf : Option (List (String × String × String))) (pl : Option DataFrame) :
    "Gene" ∈ (combinedFrame ⟨files, mkHits res, pointInput pf, pl⟩).cols := by
  cases pf with
  | none =>
    show "Gene" ∈ (["Isolate ID", "Gene"] : List String)
    decide
  | some l =>
    show "Gene" ∈ (combinedFrame ⟨files, mkHits res, some (mkPhenoHits l), pl⟩).cols
    rw [combined_pheno]
    simp

theorem combined_cols_iso (files : List String) (res : List (String × String))
    (pf : Option (List (String × String × String))) (pl : Option DataFrame) :
    "Isolate ID" ∈ (combinedFrame ⟨files, mkHits res, pointInput pf, pl⟩).cols := by
  cases pf with
  | none =>
    show "Isolate ID" ∈ (["Isolate ID", "Gene"] : List String)
    decide
  | some l =>
    show "Isolate ID" ∈ (combinedFrame ⟨files, mkHits res, some (mkPhenoHits l), pl⟩).cols
    rw [combined_pheno]
    simp

/-! ### Gene cells at the input level -/

theorem filterMap_eq_map_of_some {α β : Type} (f : α → Option β) (g : α → β)
    (l : List α) (h : ∀ x ∈ l, f x = some (g x)) : l.filterMap f = l.map g := by
  induction l with
  | nil => rfl
  | cons x xs ih =>
    rw [List.filterMap_cons, h x (List.mem_cons_self x xs), List.map_cons,
      ih (fun y hy => h y (List.mem_cons_of_mem x hy))]

theorem getCol_genoRow_iso (k g : String) : getCol (genoRow k g) "Isolate ID" = Val.str k := rfl

theorem getCol_genoRow_gene (k g : String) : getCol (genoRow k g) "Gene" = Val.str g := rfl

theorem getCol_comboRow_iso (k g : String) (ph : Val) :
    getCol (comboRow k g ph) "Isolate ID" = Val.str k := rfl

theorem getCol_comboRow_gene (k g : String) (ph : Val) :
    getCol (comboRow k g ph) "Gene" = Val.str g := rfl

theorem genesOf_map {α : Type} (mk : α → Row) (f g : α → String) (l : List α)
    (hiso : ∀ x, getCol (mk x) "Isolate ID" = Val.str (f x))
    (hgene : ∀ x, getCol (mk x) "Gene" = Val.str (g x)) (k : String) :
    genesOf (l.map mk) k = (l.filter (fun x => decide (f x = k))).map g := by
  unfold genesOf groupRows
  rw [List.filter_map, List.filterMap_map]
  have h1 : l.filter ((fun r => decide (getCol r "Isolate ID" = Val.str k)) ∘ mk)
      = l.filter (fun x => decide (f x = k)) :=
    List.filter_congr (fun x _ => by simp [Function.comp, hiso x, Val.str.injEq])
  rw [h1]
  exact filterMap_eq_map_of_some _ _ _
    (fun x _ => by simp [Function.comp, colStr, hgene x])

theorem genesOf_append (a b : List Row) (k : String) :
    genesOf (a ++ b) k = genesOf a k ++ genesOf b k := by
  unfold genesOf groupRows
  rw [List.filter_append, List.filterMap_append]

theorem combined_genesOf (files : List String) (res : List (String × String))
    (pf : Option (List (String × String × String))) (pl : Option DataFrame) (k : String) :
    genesOf (combinedFrame ⟨files, mkHits res, pointInput pf, pl⟩).rows k
      = hitGenesOf res pf k := by
  cases pf with
  | none =>
    show genesOf (res.map (fun p => genoRow p.1 p.2)) k = _
    rw [genesOf_map (fun p => genoRow p.1 p.2) Prod.fst Prod.snd res
      (fun p => getCol_genoRow_iso p.1 p.2) (fun p => getCol_genoRow_gene p.1 p.2) k]
    simp [hitGenesOf]
  | some l =>
    show genesOf (combinedFrame ⟨files, mkHits res, some (mkPhenoHits l), pl⟩).rows k = _
    rw [combined_pheno]
    show genesOf (_ ++ _) k = _
    rw [genesOf_append,
      genesOf_map (fun p => comboRow p.1 p.2 Val.nan) Prod.fst Prod.snd res
        (fun p => getCol_comboRow_iso p.1 p.2 Val.nan)
        (fun p => getCol_comboRow_gene p.1 p.2 Val.nan) k,
      genesOf_map (fun p => comboRow p.1 p.2.1 (Val.str p.2.2)) Prod.fst
        (fun p => p.2.1) l (fun p => getCol_comboRow_iso p.1 p.2.1 (Val.str p.2.2))
        (fun p => getCol_comboRow_gene p.1 p.2.1 (Val.str p.2.2)) k]
    rfl

theorem isoStr_plasmidRow (k g : String) : isoStr (plasmidRow k g) = some k := rfl

theorem compile_plasmids_eq (pl : List (String × String)) :
    _compile_plasmids (mkHits pl)
      = Except.ok ⟨["Isolate ID", "Plasmid Genes"],
          (groupKeys (mkHits pl).rows).map
            (fun k => plasmidRow k (genotypeCell (mkHits pl).rows k))⟩ := by
  unfold _compile_plasmids
  rw [compile_results_eq (by show "Gene" ∈ (["Isolate ID", "Gene"] : List String); decide)
    (by show "Isolate ID" ∈ (["Isolate ID", "Gene"] : List String); decide)
    (by
      refine wf_genoRows _ ?_
      intro r hr
      rcases List.mem_map.mp hr with ⟨p, _, rfl⟩
      exact ⟨p.1, p.2, rfl⟩)]
  unfold compiledRows genotypeCell
  show Except.ok (renameCol "Gene" "Plasmid Genes" _) = _
  unfold renameCol
  simp only [List.map_map]
  rfl

theorem find_cell_plain (ks : List String) (F : String → String) (k : String)
    (hk : k ∈ ks) :
    ((ks.map (fun k2 => plasmidRow k2 (F k2))).find?
        (fun r => decide (getCol r "Isolate ID" = Val.str k))).map
      (fun r => getCol r "Plasmid Genes")
      = some (Val.str (F k)) := by
  have hmem : plasmidRow k (F k) ∈ ks.map (fun k2 => plasmidRow k2 (F k2)) :=
    List.mem_map.mpr ⟨k, hk, rfl⟩
  have hp : (fun r => decide (getCol r "Isolate ID" = Val.str k)) (plasmidRow k (F k))
      = true := by
    simp [isoStr_some.mp (isoStr_plasmidRow k (F k))]
  have huniq : ∀ x ∈ ks.map (fun k2 => plasmidRow k2 (F k2)),
      (fun r => decide (getCol r "Isolate ID" = Val.str k)) x = true →
      x = plasmidRow k (F k) := by
    intro x hx hpx
    rcases List.mem_map.mp hx with ⟨k2, _, rfl⟩
    have hv : Val.str k2 = Val.str k := by
      simpa [isoStr_some.mp (isoStr_plasmidRow k2 (F k2))] using hpx
    rw [Val.str.injEq] at hv
    rw [hv]
  rw [find?_eq_of_unique (plasmidRow k (F k)) hmem hp huniq]
  rfl

theorem compile_plasmids_cell (pl : List (String × String)) (k : String)
    (hk : k ∈ pl.map Prod.fst) :
    ∃ d, _compile_plasmids (mkHits pl) = Except.ok d
      ∧ cellOf d k "Plasmid Genes"
          = some (Val.str (joinGenes (sortStrings
              ((pl.filter (fun p => decide (p.1 = k))).map Prod.snd)))) := by
  refine ⟨_, compile_plasmids_eq pl, ?_⟩
  unfold cellOf
  have hk2 : k ∈ groupKeys (mkHits pl).rows := by
    rw [mem_groupKeys, isolateStrs_mkHits]
    exact hk
  have := find_cell_plain (groupKeys (mkHits pl).rows)
    (fun k2 => genotypeCell (mkHits pl).rows k2) k hk2
  simp only [this]
  congr 2
  unfold genotypeCell
  congr 1
  congr 1
  show genesOf (mkHits pl).rows k = _
  show genesOf (pl.map (fun p => genoRow p.1 p.2)) k = _
  rw [genesOf_map (fun p => genoRow p.1 p.2) Prod.fst Prod.snd pl
    (fun p => getCol_genoRow_iso p.1 p.2) (fun p => getCol_genoRow_gene p.1 p.2) k]

/-! ### Column structure of every successful summary -/

theorem compile_results_cols {df d : DataFrame} (h : _compile_results df = Except.ok d) :
    d.cols = ["Isolate ID", "Gene"] := by
  unfold _compile_results at h
  split at h
  · split at h
    · split at h
      · cases h
        rfl
      · exact Except.noConfusion h
    · exact Except.noConfusion h
  · exact Except.noConfusion h

theorem compile_plasmids_cols {ds d : DataFrame} (h : _compile_plasmids ds = Except.ok d) :
    d.cols = ["Isolate ID", "Plasmid Genes"] := by
  unfold _compile_plasmids at h
  cases he : _compile_results ds with
  | error e =>
    rw [he] at h
    exact Except.noConfusion h
  | ok x =>
    rw [he] at h
    have hx : d = renameCol "Gene" "Plasmid Genes" x := by
      cases h
      rfl
    subst hx
    show x.cols.map _ = _
    rw [compile_results_cols he]
    rfl

theorem plasmidCompiled_cols {a : AMRDetectionSummary} {d : DataFrame}
    (h : plasmidCompiled a = Except.ok d) : d.cols = ["Isolate ID", "Plasmid Genes"] := by
  unfold plasmidCompiled at h
  cases hp : a.plasmidfinder_dataframe with
  | none =>
    rw [hp] at h
    exact Except.noConfusion h
  | some ds =>
    rw [hp] at h
    exact compile_plasmids_cols h

theorem include_negatives_cols {names : List String} {df : DataFrame}
    (h : df.cols = ["Isolate ID", "Gene"]) :
    (_include_negatives names df).cols = ["Isolate ID", "Gene"] := by
  unfold _include_negatives appendFrames
  show (if df.cols = ["Isolate ID", "Gene"] then df.cols else _) = _
  rw [if_pos h, h]

theorem rename_cols_geno {df : DataFrame} (h : df.cols = ["Isolate ID", "Gene"]) :
    (renameCol "Gene" "Genotype" df).cols = ["Isolate ID", "Genotype"] := by
  show df.cols.map _ = _
  rw [h]
  rfl

theorem merge_drop_error {df3 ds1 : DataFrame}
    (h3 : df3.cols = ["Isolate ID", "Genotype"])
    (hd : ds1.cols = ["Isolate ID", "Plasmid Genes"]) :
    dropCols (leftMerge df3 ds1 "Isolate ID") ["Plasmid Genes_x"]
      = Except.error "KeyError: Plasmid Genes_x not found in axis" := by
  have hcols : (leftMerge df3 ds1 "Isolate ID").cols
      = ["Isolate ID", "Genotype", "Plasmid Genes"] := by
    show df3.cols.map _ ++ (ds1.cols.filter _).map _ = _
    rw [h3, hd]
    decide
  unfold dropCols
  rw [hcols]
  rw [if_neg (by decide)]

/-- When the compiled frames are well-formed and the plasmid rows are
non-empty, the merge branch always raises the `Plasmid Genes_x` KeyError. -/
theorem create_summary_ok_structure {a : AMRDetectionSummary} {incl : Bool} {t : DataFrame}
    (h : create_summary a incl = Except.ok t) :
    ∃ df1 ds1, _compile_results (combinedFrame a) = Except.ok df1
      ∧ plasmidCompiled a = Except.ok ds1 ∧ ds1.rows = []
      ∧ t = sortIndexFrame (renameCol "Gene" "Genotype"
          (if incl then _include_negatives a.names df1 else df1)) := by
  unfold create_summary at h
  cases hc : _compile_results (combinedFrame a) with
  | error e =>
    rw [hc] at h
    exact Except.noConfusion h
  | ok df1 =>
    rw [hc] at h
    cases hd : plasmidCompiled a with
    | error e =>
      rw [hd] at h
      exact Except.noConfusion h
    | ok ds1 =>
      rw [hd] at h
      dsimp only at h
      by_cases he : ds1.rows.isEmpty = true
      · rw [if_pos he] at h
        refine ⟨df1, ds1, rfl, rfl, List.isEmpty_iff.mp he, ?_⟩
        cases h
        rfl
      · rw [if_neg he] at h
        have h3 : (renameCol "Gene" "Genotype"
            (if incl then _include_negatives a.names df1 else df1)).cols
            = ["Isolate ID", "Genotype"] := by
          apply rename_cols_geno
          cases incl with
          | true =>
            rw [if_pos rfl]
            exact include_negatives_cols (compile_results_cols hc)
          | false => exact compile_results_cols hc
        rw [merge_drop_error h3 (plasmidCompiled_cols hd)] at h
        exact Except.noConfusion h

/-! ### Claim C8: the negative-isolate injector -/

theorem filter_eq_singleton_of_nodup {l : List String} {n : String}
    (hl : l.Nodup) (hn : n ∈ l) : l.filter (fun m => decide (m = n)) = [n] := by
  induction l with
  | nil => cases hn
  | cons x xs ih =>
    rcases List.pairwise_cons.mp hl with ⟨hx, hxs⟩
    rcases List.mem_cons.mp hn with rfl | hn2
    · rw [List.filter_cons, if_pos (by simp)]
      rw [List.filter_eq_nil_iff.mpr]
      intro a ha
      simp only [decide_eq_true_eq]
      intro ha2
      exact hx a ha ha2.symm
    · rw [List.filter_cons, if_neg (by
        simp only [decide_eq_true_eq]
        exact hx n hn2)]
      exact ih hxs hn2

theorem mem_isolateStrs_of_row {rows : List Row} {r : Row} {n : String}
    (hr : r ∈ rows) (hn : getCol r "Isolate ID" = Val.str n) : n ∈ isolateStrs rows :=
  List.mem_filterMap.mpr ⟨r, hr, by simp [isoStr, hn]⟩

/-- C8: the negative-isolate injector appends, for each scanned name missing
from the compiled table, exactly one `Gene = "None"` row, and leaves the rows
of already-present isolates unaltered and unduplicated. -/
theorem include_negatives_injects_missing_only (names : List String) (df : DataFrame)
    (hcols : df.cols = ["Isolate ID", "Gene"])
    (hshape : ∀ r ∈ df.rows, ∃ k g, r = genoRow k g) :
    (_include_negatives names df).rows
        = df.rows ++ (names.dedup.filter (fun n => decide (n ∉ isolateStrs df.rows))).map
            (fun n => genoRow n "None")
      ∧ (∀ n ∈ names, n ∉ isolateStrs df.rows →
          (_include_negatives names df).rows.filter
              (fun r => decide (getCol r "Isolate ID" = Val.str n))
            = [genoRow n "None"])
      ∧ (∀ n ∈ isolateStrs df.rows,
          (_include_negatives names df).rows.filter
              (fun r => decide (getCol r "Isolate ID" = Val.str n))
            = df.rows.filter (fun r => decide (getCol r "Isolate ID" = Val.str n))) := by
  have hdf : df = ⟨["Isolate ID", "Gene"], df.rows⟩ := by
    cases df with
    | mk c r => simp only at hcols ⊢; rw [hcols]
  have hrows : (_include_negatives names df).rows
      = df.rows ++ (names.dedup.filter (fun n => decide (n ∉ isolateStrs df.rows))).map
          (fun n => genoRow n "None") := by
    conv_lhs => rw [hdf]
    rw [include_negatives_eq names df.rows hshape]
  refine ⟨hrows, ?_, ?_⟩
  · intro n _ hn2
    rw [hrows, List.filter_append]
    have h1 : df.rows.filter (fun r => decide (getCol r "Isolate ID" = Val.str n)) = [] := by
      rw [List.filter_eq_nil_iff]
      intro r hr
      simp only [decide_eq_true_eq]
      intro hiso
      exact hn2 (mem_isolateStrs_of_row hr hiso)
    rw [h1, List.nil_append]
    rw [List.filter_map]
    have h2 : (names.dedup.filter (fun n2 => decide (n2 ∉ isolateStrs df.rows))).filter
        ((fun r => decide (getCol r "Isolate ID" = Val.str n)) ∘ (fun n2 => genoRow n2 "None"))
        = (names.dedup.filter (fun n2 => decide (n2 ∉ isolateStrs df.rows))).filter
            (fun m => decide (m = n)) :=
      List.filter_congr (fun m _ => by
        simp [Function.comp, getCol_genoRow_iso, Val.str.injEq])
    rw [h2, filter_eq_singleton_of_nodup
      (List.Nodup.filter _ (List.nodup_dedup names))
      (List.mem_filter.mpr ⟨List.mem_dedup.mpr (by assumption), by simp [hn2]⟩)]
    rfl
  · intro n hn
    rw [hrows, List.filter_append]
    have h2 : ((names.dedup.filter (fun n2 => decide (n2 ∉ isolateStrs df.rows))).map
        (fun n2 => genoRow n2 "None")).filter
          (fun r => decide (getCol r "Isolate ID" = Val.str n)) = [] := by
      rw [List.filter_eq_nil_iff]
      intro r hr
      rcases List.mem_map.mp hr with ⟨m, hm, rfl⟩
      have hm2 := (List.mem_filter.mp hm).2
      simp only [decide_eq_true_eq] at hm2 ⊢
      rw [getCol_genoRow_iso, Val.str.injEq]
      intro hmn
      subst hmn
      exact hm2 hn
    rw [h2, List.append_nil]

/-! ### Claims C1, C7, C2: row completeness and cell contents -/

/-- C1 (amended): when every hit isolate is among the names derived from the
scanned files and the plasmid collection is supplied with zero rows (the only
plasmid configuration for which `create_summary` returns at all),
`create_summary(include_negatives=True)` returns one row per derived isolate:
the row isolates are a permutation of the deduplicated derived names, without
duplicates, and the row count equals the number of distinct derived names. -/
theorem create_summary_negatives_one_row_per_isolate
    (files : List String) (res : List (String × String))
    (pf : Option (List (String × String × String)))
    (hres : ∀ p ∈ res, p.1 ∈ files.map isolateName)
    (hpf : ∀ l, pf = some l → ∀ p ∈ l, p.1 ∈ files.map isolateName) :
    ∃ t, create_summary ⟨files, mkHits res, pointInput pf, some emptyHits⟩ true
        = Except.ok t
      ∧ List.Perm (summaryIsolates t) (files.map isolateName).dedup
      ∧ (summaryIsolates t).Nodup
      ∧ t.rows.length = (files.map isolateName).dedup.length := by
  have hpath := create_summary_plasmid_empty
    ⟨files, mkHits res, pointInput pf, some emptyHits⟩ true emptyHits rfl
    (by show "Gene" ∈ (["Isolate ID", "Gene"] : List String); decide)
    (by show "Isolate ID" ∈ (["Isolate ID", "Gene"] : List String); decide) rfl
    (combined_cols_gene files res pf _) (combined_cols_iso files res pf _)
    (combined_wf files res pf _)
  have hsub : ∀ k ∈ isolateStrs
      (combinedFrame ⟨files, mkHits res, pointInput pf, some emptyHits⟩).rows,
      k ∈ files.map isolateName := by
    rw [combined_isolates]
    intro k hk
    unfold hitIsolates at hk
    rcases List.mem_append.mp hk with h | h
    · rcases List.mem_map.mp h with ⟨p, hp, rfl⟩
      exact hres p hp
    · cases hl : pf with
      | none =>
        rw [hl] at h
        cases h
      | some l =>
        rw [hl] at h
        rcases List.mem_map.mp h with ⟨p, hp, rfl⟩
        exact hpf l hl p hp
  have hperm := genotypePath_isolates_dedup_perm (files.map isolateName)
    (combinedFrame ⟨files, mkHits res, pointInput pf, some emptyHits⟩).rows hsub
  refine ⟨_, hpath, hperm, ?_, ?_⟩
  · exact hperm.symm.nodup (List.nodup_dedup _)
  · rw [genotypePath_true_length]
    exact hperm.length_eq

/-- C7 (amended): when the plasmid collection is supplied with zero rows (the
only plasmid configuration for which `create_summary` returns at all),
`create_summary(include_negatives=False)` returns exactly the isolates
appearing in the gene-detection or point-mutation collections - which, the
plasmid collection being empty, are exactly the isolates with a hit in any
supplied collection - each exactly once, sorted ascending. -/
theorem create_summary_no_negatives_hit_isolates
    (files : List String) (res : List (String × String))
    (pf : Option (List (String × String × String))) :
    ∃ t, create_summary ⟨files, mkHits res, pointInput pf, some emptyHits⟩ false
        = Except.ok t
      ∧ summaryIsolates t = sortStrings (hitIsolates res pf).dedup
      ∧ (summaryIsolates t).Nodup
      ∧ t.rows.length = (hitIsolates res pf).dedup.length := by
  have hpath := create_summary_plasmid_empty
    ⟨files, mkHits res, pointInput pf, some emptyHits⟩ false emptyHits rfl
    (by show "Gene" ∈ (["Isolate ID", "Gene"] : List String); decide)
    (by show "Isolate ID" ∈ (["Isolate ID", "Gene"] : List String); decide) rfl
    (combined_cols_gene files res pf _) (combined_cols_iso files res pf _)
    (combined_wf files res pf _)
  have hiso : summaryIsolates (genotypePath false
      (AMRDetectionSummary.names ⟨files, mkHits res, pointInput pf, some emptyHits⟩)
      (combinedFrame ⟨files, mkHits res, pointInput pf, some emptyHits⟩).rows)
      = sortStrings (hitIsolates res pf).dedup := by
    rw [genotypePath_isolates_false]
    unfold groupKeys
    rw [combined_isolates]
  refine ⟨_, hpath, hiso, ?_, ?_⟩
  · rw [hiso]
    exact (sortBy_perm strLe _).symm.nodup (List.nodup_dedup _)
  · rw [genotypePath_false_length, hiso]
    exact (sortBy_perm strLe _).length_eq

/-- C2 (amended): in every summary that is actually produced (the plasmid
collection supplied with zero rows; a non-empty one raises instead, see the
counterexample), the `Genotype` cell of an isolate with at least one
gene-detection or point-mutation hit is its gene names sorted ascending and
joined with ", "; and the compiled plasmid table computed by
`_compile_plasmids` carries the same sorted, ", "-joined cells under
`Plasmid Genes`. -/
theorem genotype_cells_sorted_joined
    (files : List String) (res : List (String × String))
    (pf : Option (List (String × String × String))) (incl : Bool) (k : String)
    (hk : k ∈ hitIsolates res pf) :
    (∃ t, create_summary ⟨files, mkHits res, pointInput pf, some emptyHits⟩ incl
        = Except.ok t
      ∧ cellOf t k "Genotype"
          = some (Val.str (joinGenes (sortStrings (hitGenesOf res pf k)))))
    ∧ (∀ (pl : List (String × String)) (k2 : String), k2 ∈ pl.map Prod.fst →
        ∃ d, _compile_plasmids (mkHits pl) = Except.ok d
          ∧ cellOf d k2 "Plasmid Genes"
              = some (Val.str (joinGenes (sortStrings
                  ((pl.filter (fun p => decide (p.1 = k2))).map Prod.snd))))) := by
  constructor
  · have hpath := create_summary_plasmid_empty
      ⟨files, mkHits res, pointInput pf, some emptyHits⟩ incl emptyHits rfl
      (by show "Gene" ∈ (["Isolate ID", "Gene"] : List String); decide)
      (by show "Isolate ID" ∈ (["Isolate ID", "Gene"] : List String); decide) rfl
      (combined_cols_gene files res pf _) (combined_cols_iso files res pf _)
      (combined_wf files res pf _)
    refine ⟨_, hpath, ?_⟩
    have hk2 : k ∈ groupKeys
        (combinedFrame ⟨files, mkHits res, pointInput pf, some emptyHits⟩).rows := by
      rw [mem_groupKeys, combined_isolates]
      exact hk
    rw [genotypePath_cell incl _ _ k hk2]
    unfold genotypeCell
    rw [combined_genesOf]
  · exact fun pl k2 hk2 => compile_plasmids_cell pl k2 hk2

/-! ### Claims C3, C4, C9 -/

/-- C3 (amended): every successful summary has exactly the columns
`Isolate ID` (the index) and `Genotype`.  In particular the
`Predicted Phenotype` column is absent when no point-mutation collection is
supplied - and it is equally absent when one is supplied: the per-gene
phenotype field is dropped by `_compile_results` (its `[['Gene']]`
selection), so it is never carried through to the output. -/
theorem create_summary_no_phenotype_column (a : AMRDetectionSummary) (incl : Bool)
    (t : DataFrame) (h : create_summary a incl = Except.ok t) :
    t.cols = ["Isolate ID", "Genotype"] := by
  obtain ⟨df1, ds1, hc, hd, he, rfl⟩ := create_summary_ok_structure h
  cases incl with
  | true => exact rename_cols_geno (include_negatives_cols (compile_results_cols hc))
  | false => exact rename_cols_geno (compile_results_cols hc)

/-- C4 (amended): when the plasmid collection is supplied with the required
columns and zero rows, `create_summary` skips the merge steps and returns the
genotype table as-is (whose only columns are `Isolate ID` and `Genotype`;
no `Predicted Phenotype` column is ever added, see C3); when the plasmid
collection is absent (`None`), `create_summary` raises instead of returning
the genotype table. -/
theorem create_summary_empty_plasmid_skips_merge (a : AMRDetectionSummary) (incl : Bool) :
    (∀ p, a.plasmidfinder_dataframe = some p → "Gene" ∈ p.cols →
      "Isolate ID" ∈ p.cols → p.rows = [] →
      create_summary a incl
        = (_compile_results (combinedFrame a)).map (fun d =>
            sortIndexFrame (renameCol "Gene" "Genotype"
              (if incl then _include_negatives a.names d else d))))
    ∧ (a.plasmidfinder_dataframe = none →
        ∃ e, create_summary a incl = Except.error e) := by
  constructor
  · intro p hp hpg hpi hpr
    cases hc : _compile_results (combinedFrame a) with
    | error e =>
      unfold create_summary
      rw [hc]
      rfl
    | ok d =>
      unfold create_summary
      rw [hc]
      have hds : plasmidCompiled a = Except.ok ⟨["Isolate ID", "Plasmid Genes"], []⟩ := by
        unfold plasmidCompiled
        rw [hp]
        exact compile_plasmids_empty hpg hpi hpr
      rw [hds]
      rfl
  · intro hp
    cases hc : _compile_results (combinedFrame a) with
    | error e =>
      refine ⟨e, ?_⟩
      unfold create_summary
      rw [hc]
    | ok d =>
      refine ⟨"AttributeError: NoneType object has no attribute sort_values", ?_⟩
      unfold create_summary
      rw [hc]
      have hds : plasmidCompiled a
          = Except.error "AttributeError: NoneType object has no attribute sort_values" := by
        unfold plasmidCompiled
        rw [hp]
      rw [hds]

theorem compile_results_error_of_missing {df : DataFrame}
    (h : "Gene" ∉ df.cols ∨ "Isolate ID" ∉ df.cols) :
    ∃ e, _compile_results df = Except.error e := by
  unfold _compile_results
  by_cases hg : "Gene" ∈ df.cols
  · have hiso : "Isolate ID" ∉ df.cols := by
      rcases h with h | h
      · exact absurd hg h
      · exact h
    rw [if_pos hg, if_neg hiso]
    exact ⟨_, rfl⟩
  · rw [if_neg hg]
    exact ⟨_, rfl⟩

/-- C9 (amended): a plasmid collection lacking a required column makes
`create_summary` raise, as does a gene-detection collection lacking one when
no point-mutation collection is supplied (then nothing is appended to it).
The claim fails in the remaining configuration: appending makes the column
union NaN-filled, and rows whose `Isolate ID` is NaN are silently dropped by
the grouping, so a summary is returned (see the counterexample). -/
theorem missing_required_columns_raise (a : AMRDetectionSummary) (incl : Bool) :
    (∀ p, a.plasmidfinder_dataframe = some p →
        ("Gene" ∉ p.cols ∨ "Isolate ID" ∉ p.cols) →
        ∃ e, create_summary a incl = Except.error e)
    ∧ (a.pointfinder_dataframe = none →
        ("Gene" ∉ a.resfinder_dataframe.cols ∨ "Isolate ID" ∉ a.resfinder_dataframe.cols) →
        ∃ e, create_summary a incl = Except.error e) := by
  constructor
  · intro p hp hmiss
    cases hc : _compile_results (combinedFrame a) with
    | error e =>
      refine ⟨e, ?_⟩
      unfold create_summary
      rw [hc]
    | ok d =>
      obtain ⟨e, he⟩ := compile_results_error_of_missing hmiss
      refine ⟨e, ?_⟩
      unfold create_summary
      rw [hc]
      have hplas : plasmidCompiled a = Except.error e := by
        unfold plasmidCompiled
        rw [hp]
        show Except.map (renameCol "Gene" "Plasmid Genes") (_compile_results p)
          = Except.error e
        rw [he]
        rfl
      rw [hplas]
  · intro hnone hmiss
    have hcf : combinedFrame a = a.resfinder_dataframe := by
      unfold combinedFrame
      rw [hnone]
    obtain ⟨e, he⟩ := compile_results_error_of_missing hmiss
    refine ⟨e, ?_⟩
    unfold create_summary
    rw [hcf, he]

/-! ### Counterexamples and bug demonstrations -/

/-- C1 counterexample: with scanned files deriving only isolate `a` but a hit
collection naming isolate `X` (and the plasmid collection supplied empty),
the summary has rows for both `X` and `a` - an isolate not derived from the
scanned files appears, so `create_summary(include_negatives=True)` does not
return exactly one row per derived isolate. -/
theorem create_summary_negatives_counterexample :
    (create_summary summaryC1x true).map summaryIsolates = Except.ok ["X", "a"]
      ∧ ["a.fa"].map isolateName = ["a"] :=
  ⟨rfl, rfl⟩

/-- C2 counterexample: with plasmid hits [("A","pZ"), ("A","pA")] supplied,
`create_summary` raises a KeyError instead of producing a row whose
`Plasmid Genes` cell is "pA, pZ" - no summary containing plasmid cells is
ever produced. -/
theorem plasmid_cells_never_produced_counterexample :
    create_summary summaryC2x false
      = Except.error "KeyError: Plasmid Genes_x not found in axis" := rfl

/-- C3 counterexample: a point-mutation collection with phenotype value
`Resistant` for isolate A is supplied, yet the summary columns are exactly
`Isolate ID` and `Genotype` - the `Predicted Phenotype` column is not
carried through to the output. -/
theorem phenotype_not_carried_counterexample :
    (create_summary summaryC3x true).map DataFrame.cols
      = Except.ok ["Isolate ID", "Genotype"] := rfl

/-- C4 counterexample: when the plasmid collection is absent (not supplied),
`create_summary` does not return the genotype table as-is; it raises,
because `_compile_plasmids` is applied to `None` unconditionally. -/
theorem absent_plasmid_raises_counterexample :
    create_summary summaryC4x true
      = Except.error "AttributeError: NoneType object has no attribute sort_values" := rfl

/-- C5 bug demonstration: on genotype table {A} merged with plasmid table
{A}, the claimed collision resolution never happens - the genotype column
was already renamed `Genotype` before the merge, so no `Plasmid Genes_x`
column exists and the drop raises a KeyError on every non-empty merge. -/
theorem plasmid_merge_keyerror_bug :
    create_summary summaryC5 false
      = Except.error "KeyError: Plasmid Genes_x not found in axis" := rfl

/-- C6 bug demonstration: on genotype isolates {A, B} and plasmid isolates
{A, C}, the claimed left join never completes - `create_summary` raises the
`Plasmid Genes_x` KeyError instead of returning rows for A and B. -/
theorem left_join_never_happens_bug :
    create_summary summaryC6 false
      = Except.error "KeyError: Plasmid Genes_x not found in axis" := rfl

/-- C7 counterexample: with a plasmid hit on isolate P supplied,
`create_summary(include_negatives=False)` raises instead of returning the
isolates {A, P} that appear in some hit collection. -/
theorem no_negatives_plasmid_crash_counterexample :
    create_summary summaryC7x false
      = Except.error "KeyError: Plasmid Genes_x not found in axis" := rfl

/-- C9 counterexample: the supplied point-mutation collection lacks the
required `Isolate ID` column, yet `create_summary` raises nothing: it
returns a summary silently missing that collection's hit (gene `gB`),
because the appended rows get a NaN isolate and are dropped by the
grouping. -/
theorem silent_column_drop_counterexample :
    create_summary summaryC9x false
      = Except.ok ⟨["Isolate ID", "Genotype"],
          [[("Isolate ID", Val.str "A"), ("Genotype", Val.str "gA")]]⟩ := rfl

/-- C10 bug demonstration: isolate A is scanned with no gene hits but one
plasmid hit; with `include_negatives=True` the placeholder row never joins
the plasmid table - `create_summary` raises the `Plasmid Genes_x` KeyError
instead of producing Genotype "None" with Plasmid Genes "pA" for A. -/
theorem plasmid_only_negative_isolate_bug :
    create_summary summaryC10 true
      = Except.error "KeyError: Plasmid Genes_x not found in axis" := rfl

/-! ### Witnesses -/

/-- Witness for C1 at a concrete input satisfying the hypotheses. -/
theorem create_summary_negatives_one_row_per_isolate_witness :
    (∀ p ∈ [("x", "g1")], p.1 ∈ ["x.fa"].map isolateName)
      ∧ ∃ t, create_summary ⟨["x.fa"], mkHits [("x", "g1")], pointInput none,
            some emptyHits⟩ true = Except.ok t
          ∧ List.Perm (summaryIsolates t) (["x.fa"].map isolateName).dedup
          ∧ (summaryIsolates t).Nodup
          ∧ t.rows.length = (["x.fa"].map isolateName).dedup.length :=
  ⟨by decide,
   create_summary_negatives_one_row_per_isolate ["x.fa"] [("x", "g1")] none
     (by decide) (fun l h => Option.noConfusion h)⟩

/-- Witness for C2 at a concrete input satisfying the hypothesis. -/
theorem genotype_cells_sorted_joined_witness :
    ("A" ∈ hitIsolates [("A", "blaZ"), ("A", "blaOXA")] none)
      ∧ ((∃ t, create_summary ⟨["A.fa"], mkHits [("A", "blaZ"), ("A", "blaOXA")],
              pointInput none, some emptyHits⟩ true = Except.ok t
            ∧ cellOf t "A" "Genotype"
                = some (Val.str (joinGenes (sortStrings
                    (hitGenesOf [("A", "blaZ"), ("A", "blaOXA")] none "A")))))
          ∧ (∀ (pl : List (String × String)) (k2 : String), k2 ∈ pl.map Prod.fst →
              ∃ d, _compile_plasmids (mkHits pl) = Except.ok d
                ∧ cellOf d k2 "Plasmid Genes"
                    = some (Val.str (joinGenes (sortStrings
                        ((pl.filter (fun p => decide (p.1 = k2))).map Prod.snd)))))) :=
  ⟨by decide,
   genotype_cells_sorted_joined ["A.fa"] [("A", "blaZ"), ("A", "blaOXA")] none true "A"
     (by decide)⟩

/-- Witness for C3 at a concrete successful summary. -/
theorem create_summary_no_phenotype_column_witness :
    create_summary summaryC3x true
        = Except.ok ⟨["Isolate ID", "Genotype"],
            [[("Isolate ID", Val.str "A"), ("Genotype", Val.str "gA, gB")]]⟩
      ∧ (DataFrame.mk ["Isolate ID", "Genotype"]
            [[("Isolate ID", Val.str "A"), ("Genotype", Val.str "gA, gB")]]).cols
          = ["Isolate ID", "Genotype"] :=
  ⟨rfl, create_summary_no_phenotype_column summaryC3x true _ rfl⟩

/-- Witness for C4: the supplied-empty branch and the absent branch, each at
a concrete input satisfying its hypotheses. -/
theorem create_summary_empty_plasmid_skips_merge_witness :
    (create_summary summaryC4w true
        = (_compile_results (combinedFrame summaryC4w)).map (fun d =>
            sortIndexFrame (renameCol "Gene" "Genotype"
              (if true then _include_negatives summaryC4w.names d else d))))
      ∧ ∃ e, create_summary summaryC4x true = Except.error e :=
  ⟨(create_summary_empty_plasmid_skips_merge summaryC4w true).1 emptyHits rfl
     (by decide) (by decide) rfl,
   (create_summary_empty_plasmid_skips_merge summaryC4x true).2 rfl⟩

/-- Witness for C8 at a concrete compiled table and name list. -/
theorem include_negatives_injects_missing_only_witness :
    frameC8.cols = ["Isolate ID", "Gene"]
      ∧ ((_include_negatives ["a", "b"] frameC8).rows
            = frameC8.rows
              ++ ((["a", "b"].dedup.filter
                    (fun n => decide (n ∉ isolateStrs frameC8.rows))).map
                  (fun n => genoRow n "None"))
          ∧ (∀ n ∈ ["a", "b"], n ∉ isolateStrs frameC8.rows →
              (_include_negatives ["a", "b"] frameC8).rows.filter
                  (fun r => decide (getCol r "Isolate ID" = Val.str n))
                = [genoRow n "None"])
          ∧ (∀ n ∈ isolateStrs frameC8.rows,
              (_include_negatives ["a", "b"] frameC8).rows.filter
                  (fun r => decide (getCol r "Isolate ID" = Val.str n))
                = frameC8.rows.filter
                    (fun r => decide (getCol r "Isolate ID" = Val.str n)))) :=
  ⟨rfl,
   include_negatives_injects_missing_only ["a", "b"] frameC8 rfl
     (fun _ hr => ⟨"a", "gA", List.mem_singleton.mp hr⟩)⟩

/-- Witness for C9: a plasmid collection lacking `Gene` makes
`create_summary` raise. -/
theorem missing_required_columns_raise_witness :
    ("Gene" ∉ plasmidNoGene.cols)
      ∧ ∃ e, create_summary summaryC9w false = Except.error e :=
  ⟨by decide,
   (missing_required_columns_raise summaryC9w false).1 plasmidNoGene rfl
     (Or.inl (by decide))⟩

end StarAMR
